import Mathlib

/-!
Shallow embedding of the drag-and-drop insertion-point engine of the
theme-builder repository:

* `calculateInsertionPoint` embeds the half-split variant of
  `src/theme-builder/src/utils/insertionCalculator.ts` (the later revision);
* `calculateInsertionPointBelow` embeds the earlier "always insert below"
  revision of the same file;
* `handleDragStart` / `handleDragMove` / `handleDragEnd` / `handleDragCancel`
  embed the `useDragAndDrop` hook.

Pixel coordinates are modelled as rationals (`ℚ`); the DOM query
`document.querySelector(...)` + `getBoundingClientRect()` is modelled as an
injected resolver `String → Option Rect` (the spec's PositionProbe).
-/

/-- A bounding rectangle as sampled from the rendering surface:
`{ top: rect.top, bottom: rect.bottom, height: rect.height }`. -/
structure Rect where
  top : ℚ
  bottom : ℚ
  height : ℚ
deriving DecidableEq, Repr

/-- One entry of `componentRects` in `calculateInsertionPoint`:
the id together with its sampled geometry and the derived
`centerY = rect.top + rect.height / 2`. -/
structure ComponentRect where
  id : String
  top : ℚ
  bottom : ℚ
  height : ℚ
  centerY : ℚ
deriving DecidableEq, Repr

/-- `InsertionCalculationResult` from insertionCalculator.ts. -/
structure InsertionCalculationResult where
  insertionIndex : Nat
  hoveredComponentId : Option String
deriving DecidableEq, Repr

/-- Builds the `componentRects` entry for one id: `null` when the element
cannot be resolved, otherwise the rect with its derived center. -/
def toComponentRect (resolve : String → Option Rect) (id : String) :
    Option ComponentRect :=
  (resolve id).map fun r =>
    { id := id, top := r.top, bottom := r.bottom, height := r.height,
      centerY := r.top + r.height / 2 }

/-- The `componentRects` list: map each id to its rect and drop the
unresolved ones (`.map(...).filter(rect => rect !== null)`). -/
def resolvedRects (componentIds : List String) (resolve : String → Option Rect) :
    List ComponentRect :=
  componentIds.filterMap (toComponentRect resolve)

/-- The `for` loop of the half-split variant of `calculateInsertionPoint`
(lines 113-152 of insertionCalculator.ts), scanning `componentRects` from
index `i`; `len` is `componentRects.length`.  Returns the `(insertionIndex,
hoveredComponentId)` pair of the first box that resolves, or `none` when the
loop falls through. -/
def scanLoopHalf (cursorY : ℚ) (draggedId : Option String) (len : Nat) :
    Nat → List ComponentRect → Option (Nat × String)
  | _, [] => none
  | i, c :: rest =>
    if c.top ≤ cursorY ∧ cursorY ≤ c.bottom then
      let isInTopHalf := cursorY < c.centerY
      if draggedId = some c.id then
        if isInTopHalf ∧ 0 < i then
          some (i, c.id)
        else if ¬ isInTopHalf ∧ i < len - 1 then
          some (i + 1, c.id)
        else
          scanLoopHalf cursorY draggedId len (i + 1) rest
      else
        if isInTopHalf then some (i, c.id) else some (i + 1, c.id)
    else
      scanLoopHalf cursorY draggedId len (i + 1) rest

/-- The half-split variant of `calculateInsertionPoint`
(the later revision of insertionCalculator.ts). -/
def calculateInsertionPoint (cursorY : ℚ) (componentIds : List String)
    (draggedComponentId : Option String) (resolve : String → Option Rect) :
    InsertionCalculationResult :=
  if componentIds.isEmpty then
    { insertionIndex := 0, hoveredComponentId := none }
  else
    let componentRects := resolvedRects componentIds resolve
    match componentRects.head?, componentRects.getLast? with
    | some first, some last =>
      if cursorY < first.top then
        { insertionIndex := 0, hoveredComponentId := none }
      else if cursorY > last.bottom then
        { insertionIndex := componentIds.length, hoveredComponentId := none }
      else
        match scanLoopHalf cursorY draggedComponentId componentRects.length
            0 componentRects with
        | some (i, id) => { insertionIndex := i, hoveredComponentId := some id }
        | none =>
          { insertionIndex := componentIds.length, hoveredComponentId := none }
    | _, _ => { insertionIndex := 0, hoveredComponentId := none }

/-- The `for` loop of the "always insert below" variant: the dragged box is
always skipped, any other hovered box resolves at `i + 1`. -/
def scanLoopBelow (cursorY : ℚ) (draggedId : Option String) :
    Nat → List ComponentRect → Option (Nat × String)
  | _, [] => none
  | i, c :: rest =>
    if c.top ≤ cursorY ∧ cursorY ≤ c.bottom then
      if draggedId = some c.id then
        scanLoopBelow cursorY draggedId (i + 1) rest
      else
        some (i + 1, c.id)
    else
      scanLoopBelow cursorY draggedId (i + 1) rest

/-- The "always insert below" variant of `calculateInsertionPoint`
(the earlier revision of insertionCalculator.ts); the surrounding edge-case
branches are identical to the half-split variant. -/
def calculateInsertionPointBelow (cursorY : ℚ) (componentIds : List String)
    (draggedComponentId : Option String) (resolve : String → Option Rect) :
    InsertionCalculationResult :=
  if componentIds.isEmpty then
    { insertionIndex := 0, hoveredComponentId := none }
  else
    let componentRects := resolvedRects componentIds resolve
    match componentRects.head?, componentRects.getLast? with
    | some first, some last =>
      if cursorY < first.top then
        { insertionIndex := 0, hoveredComponentId := none }
      else if cursorY > last.bottom then
        { insertionIndex := componentIds.length, hoveredComponentId := none }
      else
        match scanLoopBelow cursorY draggedComponentId 0 componentRects with
        | some (i, id) => { insertionIndex := i, hoveredComponentId := some id }
        | none =>
          { insertionIndex := componentIds.length, hoveredComponentId := none }
    | _, _ => { insertionIndex := 0, hoveredComponentId := none }

/-- Two stacked 100px boxes at 100 and 210, as in the unit tests. -/
def twoBoxes : String → Option Rect
  | "comp-1" => some { top := 100, bottom := 200, height := 100 }
  | "comp-2" => some { top := 210, bottom := 310, height := 100 }
  | _ => none

/-- Three stacked 100px boxes at 100, 210 and 320. -/
def threeBoxes : String → Option Rect
  | "comp-1" => some { top := 100, bottom := 200, height := 100 }
  | "comp-2" => some { top := 210, bottom := 310, height := 100 }
  | "comp-3" => some { top := 320, bottom := 420, height := 100 }
  | _ => none

/-- Three stacked 80px boxes at 0, 80 and 160 (no gaps). -/
def boxes80 : String → Option Rect
  | "a1" => some { top := 0, bottom := 80, height := 80 }
  | "a2" => some { top := 80, bottom := 160, height := 80 }
  | "a3" => some { top := 160, bottom := 240, height := 80 }
  | _ => none

/-!
Embedding of the `useDragAndDrop` hook.  The hook's `layout` prop is an array
of records of which only the `id` field is ever read, so it is modelled as a
list of ids.  dnd-kit's `event.delta` is a non-optional object, so the
JavaScript truthiness test `event.delta` in `handleDragMove` is constantly
true and is not modelled as a branch.
-/

/-- The `DragState` record of the hook. -/
structure DragState where
  isDragging : Bool
  draggedComponentType : Option String
  draggedId : Option String
  isReordering : Bool
  isOverCanvas : Bool
  insertionIndex : Option Nat
  hoveredComponentId : Option String
deriving DecidableEq, Repr

/-- The initial (idle) drag state, also the record every reset writes. -/
def initialDragState : DragState :=
  { isDragging := false, draggedComponentType := none, draggedId := none,
    isReordering := false, isOverCanvas := false, insertionIndex := none,
    hoveredComponentId := none }

/-- The fields of a `DragStartEvent` that `handleDragStart` reads:
`active.data.current?.componentType`, `active.data.current?.type` and
`active.id`. -/
structure DragStartEventM where
  componentType : Option String
  dragType : Option String
  activeId : String
deriving DecidableEq, Repr

/-- `active.rect.current.translated`: the dragged element's live rectangle,
possibly unresolved. -/
structure ActiveRect where
  top : ℚ
  height : ℚ
deriving DecidableEq, Repr

/-- The fields of a `DragMoveEvent` that `handleDragMove` reads:
`over?.data.current?.type`, `active.id` and `active.rect.current.translated`. -/
structure DragMoveEventM where
  overType : Option String
  activeId : String
  activeRect : Option ActiveRect
deriving DecidableEq, Repr

/-- The fields of `over` that `handleDragEnd` reads when a drop target
exists: `over.id` and `over.data.current?.index`. -/
structure OverData where
  overId : String
  overIndex : Option Nat
deriving DecidableEq, Repr

/-- The fields of a `DragEndEvent` that `handleDragEnd` reads. -/
structure DragEndEventM where
  over : Option OverData
  activeId : String
  activeType : Option String
  componentType : Option String
deriving DecidableEq, Repr

/-- An observable callback invocation made by `handleDragEnd`:
`onComponentReorder(fromIndex, toIndex)`, `onComponentAdd(componentType,
atIndex)` or the `toast.info` UI notice. -/
inductive DragAction where
  | reorder (fromIndex toIndex : Int)
  | add (componentType : String) (atIndex : Nat)
  | toastInfo (message : String)
deriving DecidableEq, Repr

/-- `handleDragStart`: replaces the whole state record.  The JavaScript
`componentType || dragType` falls back to `dragType` when `componentType`
is absent. -/
def handleDragStart (ev : DragStartEventM) : DragState :=
  { isDragging := true
    draggedComponentType :=
      match ev.componentType with
      | some t => some t
      | none => ev.dragType
    draggedId := some ev.activeId
    isReordering := ev.dragType = some "canvas-component"
    isOverCanvas := false
    insertionIndex := none
    hoveredComponentId := none }

/-- `handleDragMove`'s `isOverCanvas`: whether `over?.data.current?.type`
is `'canvas-component'`. -/
def moveIsOverCanvas (ev : DragMoveEventM) : Bool :=
  ev.overType = some "canvas-component"

/-- `handleDragMove`'s `(insertionIndex, hoveredComponentId)` pair: computed
from the calculator when over the canvas with a resolved active rect
(`cursorY = activeRect.top + activeRect.height / 2`), both `null`
otherwise. -/
def moveComputed (prev : DragState) (layout : List String)
    (resolve : String → Option Rect) (ev : DragMoveEventM) :
    Option Nat × Option String :=
  if moveIsOverCanvas ev then
    match ev.activeRect with
    | some r =>
      let cursorY := r.top + r.height / 2
      let result := calculateInsertionPoint cursorY layout
        (if prev.isReordering then some ev.activeId else none) resolve
      (some result.insertionIndex, result.hoveredComponentId)
    | none => (none, none)
  else (none, none)

/-- `handleDragMove`: recomputes `isOverCanvas`, `insertionIndex` and
`hoveredComponentId` from the event; the trailing conditional keeps the
previous record when none of the three fields changed. -/
def handleDragMove (prev : DragState) (layout : List String)
    (resolve : String → Option Rect) (ev : DragMoveEventM) : DragState :=
  if prev.isOverCanvas = moveIsOverCanvas ev ∧
      prev.insertionIndex = (moveComputed prev layout resolve ev).1 ∧
      prev.hoveredComponentId = (moveComputed prev layout resolve ev).2 then
    prev
  else
    { prev with
      isOverCanvas := moveIsOverCanvas ev
      insertionIndex := (moveComputed prev layout resolve ev).1
      hoveredComponentId := (moveComputed prev layout resolve ev).2 }

/-- JavaScript `Array.prototype.findIndex` over the layout's ids:
the index of the first match, `-1` when there is none. -/
def jsFindIndex (layout : List String) (targetId : String) : Int :=
  match layout.findIdx? (fun y => y = targetId) with
  | some i => (i : Int)
  | none => -1

/-- `handleDragEnd`: returns the state written by the final `setDragState`
together with the list of callback invocations made on the way.  With no
drop target the state resets and only the library-component toast may fire;
otherwise the reorder or add path runs and the state resets. -/
def handleDragEnd (ds : DragState) (layout : List String)
    (ev : DragEndEventM) : DragState × List DragAction :=
  match ev.over with
  | none =>
    let acts :=
      if ev.activeType ≠ some "canvas-component" then
        [DragAction.toastInfo "Drop component on the canvas to add it"]
      else []
    (initialDragState, acts)
  | some over =>
    let acts :=
      if ev.activeType = some "canvas-component" then
        let oldIndex := jsFindIndex layout ev.activeId
        let newIndex : Int :=
          match ds.insertionIndex with
          | some raw =>
            if (raw : Int) > oldIndex then (raw : Int) - 1 else (raw : Int)
          | none => jsFindIndex layout over.overId
        if oldIndex ≠ -1 ∧ newIndex ≠ -1 ∧ oldIndex ≠ newIndex then
          [DragAction.reorder oldIndex newIndex]
        else []
      else
        match ev.componentType,
            (match ds.insertionIndex with
             | some n => some n
             | none => over.overIndex) with
        | some ct, some d => [DragAction.add ct d]
        | _, _ => []
    (initialDragState, acts)

/-- `handleDragCancel`: resets the state; it invokes no callback. -/
def handleDragCancel : DragState × List DragAction :=
  (initialDragState, [])

/-- The states the drag session can be in after any finite sequence of
handler invocations, starting from the initial hook state; events, layouts
and geometry resolvers are arbitrary at every step. -/
inductive Reachable : DragState → Prop where
  | init : Reachable initialDragState
  | start (s : DragState) (ev : DragStartEventM) (_ : Reachable s) :
      Reachable (handleDragStart ev)
  | move (s : DragState) (layout : List String)
      (resolve : String → Option Rect) (ev : DragMoveEventM)
      (_ : Reachable s) : Reachable (handleDragMove s layout resolve ev)
  | drop (s : DragState) (layout : List String) (ev : DragEndEventM)
      (_ : Reachable s) : Reachable (handleDragEnd s layout ev).1
  | cancel (s : DragState) (_ : Reachable s) : Reachable handleDragCancel.1

/-- Modelled from the spec: the `reorderComponent` callback handed to the
hook (the CanvasReconciler move case) is implemented outside the sources at
hand; per §4.3 it removes the entry at `fromIndex` and re-inserts it at the
target index ("remove-then-insert at target index"). -/
def reorderMove (layout : List String) (fromIndex toIndex : Nat) :
    List String :=
  match layout.get? fromIndex with
  | none => layout
  | some x =>
    let removed := layout.eraseIdx fromIndex
    removed.take toIndex ++ x :: removed.drop toIndex

/-- A geometry resolver with no resolvable boxes. -/
def probeNone : String → Option Rect := fun _ => none

/-!
Sanity checks against the unit-test scenarios of the repository.
-/

example :
    calculateInsertionPoint 130 ["comp-1", "comp-2"] none twoBoxes =
      { insertionIndex := 0, hoveredComponentId := some "comp-1" } := by
  norm_num [calculateInsertionPoint, resolvedRects, toComponentRect, twoBoxes,
    scanLoopHalf] <;> decide

example :
    calculateInsertionPoint 170 ["comp-1", "comp-2"] none twoBoxes =
      { insertionIndex := 1, hoveredComponentId := some "comp-1" } := by
  norm_num [calculateInsertionPoint, resolvedRects, toComponentRect, twoBoxes,
    scanLoopHalf] <;> decide

example :
    calculateInsertionPoint 150 ["comp-1", "comp-2"] none twoBoxes =
      { insertionIndex := 1, hoveredComponentId := some "comp-1" } := by
  norm_num [calculateInsertionPoint, resolvedRects, toComponentRect, twoBoxes,
    scanLoopHalf] <;> decide

example :
    calculateInsertionPoint 50 ["comp-1", "comp-2"] none twoBoxes =
      { insertionIndex := 0, hoveredComponentId := none } := by
  norm_num [calculateInsertionPoint, resolvedRects, toComponentRect, twoBoxes,
    scanLoopHalf] <;> decide

example :
    calculateInsertionPoint 350 ["comp-1", "comp-2"] none twoBoxes =
      { insertionIndex := 2, hoveredComponentId := none } := by
  norm_num [calculateInsertionPoint, resolvedRects, toComponentRect, twoBoxes,
    scanLoopHalf] <;> decide

example :
    calculateInsertionPointBelow 130 ["comp-1", "comp-2"] none twoBoxes =
      { insertionIndex := 1, hoveredComponentId := some "comp-1" } := by
  norm_num [calculateInsertionPointBelow, resolvedRects, toComponentRect,
    twoBoxes, scanLoopBelow] <;> decide

example : reorderMove ["A", "B", "C"] 0 1 = ["B", "A", "C"] := by decide

/-!
Helper lemmas about the half-split scan and the calculator.
-/

theorem scanLoopHalf_le (cy : ℚ) (d : Option String) (len : Nat) :
    ∀ (l : List ComponentRect) (i j : Nat) (s : String),
      scanLoopHalf cy d len i l = some (j, s) → j ≤ i + l.length := by
  intro l
  induction l with
  | nil => intro i j s h; simp [scanLoopHalf] at h
  | cons c rest ih =>
    intro i j s h
    simp only [scanLoopHalf] at h
    split at h
    · split at h
      · split at h
        · simp only [Option.some.injEq, Prod.mk.injEq] at h
          obtain ⟨rfl, rfl⟩ := h
          simp only [List.length_cons]
          omega
        · split at h
          · simp only [Option.some.injEq, Prod.mk.injEq] at h
            obtain ⟨rfl, rfl⟩ := h
            simp only [List.length_cons]
            omega
          · have := ih (i + 1) j s h
            simp only [List.length_cons]
            omega
      · split at h
        · simp only [Option.some.injEq, Prod.mk.injEq] at h
          obtain ⟨rfl, rfl⟩ := h
          simp only [List.length_cons]
          omega
        · simp only [Option.some.injEq, Prod.mk.injEq] at h
          obtain ⟨rfl, rfl⟩ := h
          simp only [List.length_cons]
          omega
    · have := ih (i + 1) j s h
      simp only [List.length_cons]
      omega

theorem scanLoopHalf_mem (cy : ℚ) (d : Option String) (len : Nat) :
    ∀ (l : List ComponentRect) (i j : Nat) (s : String),
      scanLoopHalf cy d len i l = some (j, s) → s ∈ l.map ComponentRect.id := by
  intro l
  induction l with
  | nil => intro i j s h; simp [scanLoopHalf] at h
  | cons c rest ih =>
    intro i j s h
    simp only [scanLoopHalf] at h
    split at h
    · split at h
      · split at h
        · simp only [Option.some.injEq, Prod.mk.injEq] at h
          obtain ⟨-, rfl⟩ := h
          simp
        · split at h
          · simp only [Option.some.injEq, Prod.mk.injEq] at h
            obtain ⟨-, rfl⟩ := h
            simp
          · have := ih (i + 1) j s h
            simp only [List.map_cons, List.mem_cons]
            exact Or.inr this
      · split at h
        · simp only [Option.some.injEq, Prod.mk.injEq] at h
          obtain ⟨-, rfl⟩ := h
          simp
        · simp only [Option.some.injEq, Prod.mk.injEq] at h
          obtain ⟨-, rfl⟩ := h
          simp
    · have := ih (i + 1) j s h
      simp only [List.map_cons, List.mem_cons]
      exact Or.inr this

theorem scanLoopHalf_append (cy : ℚ) (d : Option String) (len : Nat) :
    ∀ (pre : List ComponentRect),
      (∀ b ∈ pre, ¬ (b.top ≤ cy ∧ cy ≤ b.bottom)) →
      ∀ (i : Nat) (l : List ComponentRect),
        scanLoopHalf cy d len i (pre ++ l) =
          scanLoopHalf cy d len (i + pre.length) l := by
  intro pre
  induction pre with
  | nil => intro _ i l; simp
  | cons b pre ih =>
    intro hmiss i l
    have hb : ¬ (b.top ≤ cy ∧ cy ≤ b.bottom) := hmiss b (by simp)
    have hrest : ∀ x ∈ pre, ¬ (x.top ≤ cy ∧ cy ≤ x.bottom) :=
      fun x hx => hmiss x (by simp [hx])
    have harith : i + 1 + pre.length = i + (b :: pre).length := by
      simp only [List.length_cons]; omega
    rw [List.cons_append]
    simp only [scanLoopHalf, if_neg hb]
    rw [ih hrest (i + 1) l, harith]

theorem resolvedRects_id_mem {ids : List String} {resolve : String → Option Rect}
    {c : ComponentRect} (h : c ∈ resolvedRects ids resolve) : c.id ∈ ids := by
  simp only [resolvedRects, List.mem_filterMap] at h
  obtain ⟨a, ha, hfa⟩ := h
  unfold toComponentRect at hfa
  cases hr : resolve a with
  | none => rw [hr] at hfa; simp at hfa
  | some r =>
    rw [hr] at hfa
    simp only [Option.map_some', Option.some.injEq] at hfa
    subst hfa
    simpa using ha

theorem calculateInsertionPoint_eq_scan (cy : ℚ) (ids : List String)
    (d : Option String) (resolve : String → Option Rect)
    (l : List ComponentRect) (h : resolvedRects ids resolve = l) (hne : l ≠ [])
    (hfirst : ¬ cy < (l.head hne).top)
    (hlast : ¬ cy > (l.getLast hne).bottom) :
    calculateInsertionPoint cy ids d resolve =
      (match scanLoopHalf cy d l.length 0 l with
       | some (i, id) => { insertionIndex := i, hoveredComponentId := some id }
       | none => { insertionIndex := ids.length, hoveredComponentId := none }) := by
  have hids : ids.isEmpty = false := by
    cases ids with
    | nil =>
      exfalso; apply hne; rw [← h]; rfl
    | cons a as => rfl
  unfold calculateInsertionPoint
  rw [hids]
  simp only [Bool.false_eq_true, if_false, h]
  rw [List.head?_eq_head hne, List.getLast?_eq_getLast l hne]
  simp only [if_neg hfirst, if_neg hlast]

/-- C5: for every non-empty `componentIds`, every cursor position, dragged id
and geometry assignment, the insertion index returned by the half-split
`calculateInsertionPoint` satisfies `0 ≤ insertionIndex ≤ componentIds.length`. -/
theorem insertionIndex_bounds (cy : ℚ) (ids : List String) (d : Option String)
    (resolve : String → Option Rect) (hne : ids ≠ []) :
    0 ≤ (calculateInsertionPoint cy ids d resolve).insertionIndex ∧
      (calculateInsertionPoint cy ids d resolve).insertionIndex ≤ ids.length := by
  refine ⟨Nat.zero_le _, ?_⟩
  have hlen : (resolvedRects ids resolve).length ≤ ids.length :=
    List.length_filterMap_le _ _
  simp only [calculateInsertionPoint]
  split
  · simp
  · split
    · split
      · simp
      · split
        · simp
        · split
          next i s heq =>
            have hle := scanLoopHalf_le cy d (resolvedRects ids resolve).length
              (resolvedRects ids resolve) 0 i s heq
            simp only []
            omega
          next heq => simp
    · simp

/-- C5 witness: the bound evaluated at a concrete input. -/
theorem insertionIndex_bounds_witness :
    0 ≤ (calculateInsertionPoint 130 ["comp-1", "comp-2"] none twoBoxes).insertionIndex ∧
      (calculateInsertionPoint 130 ["comp-1", "comp-2"] none twoBoxes).insertionIndex ≤ 2 :=
  insertionIndex_bounds 130 ["comp-1", "comp-2"] none twoBoxes (by decide)

/-- C6: whenever the half-split `calculateInsertionPoint` reports a non-null
`hoveredComponentId`, that id is an element of the `componentIds` list. -/
theorem hovered_mem_componentIds (cy : ℚ) (ids : List String)
    (d : Option String) (resolve : String → Option Rect) (s : String)
    (h : (calculateInsertionPoint cy ids d resolve).hoveredComponentId = some s) :
    s ∈ ids := by
  simp only [calculateInsertionPoint] at h
  split at h
  · simp at h
  · split at h
    · split at h
      · simp at h
      · split at h
        · simp at h
        · split at h
          next i s' heq =>
            simp only [Option.some.injEq] at h
            subst h
            have hmem := scanLoopHalf_mem cy d (resolvedRects ids resolve).length
              (resolvedRects ids resolve) 0 i s' heq
            simp only [List.mem_map] at hmem
            obtain ⟨c, hc, hcid⟩ := hmem
            rw [← hcid]
            exact resolvedRects_id_mem hc
          next heq => simp at h
    · simp at h

/-- C6 witness: a concrete input whose hovered id is indeed in the list. -/
theorem hovered_mem_componentIds_witness : "comp-1" ∈ ["comp-1", "comp-2"] :=
  hovered_mem_componentIds 130 ["comp-1", "comp-2"] none twoBoxes "comp-1"
    (by norm_num [calculateInsertionPoint, resolvedRects, toComponentRect,
      twoBoxes, scanLoopHalf] <;> decide)

/-- C7: the half-split calculator is a total function returning a well-formed
result on every input; in particular an empty component list yields
`{0, null}`, unresolvable geometry for every id yields `{0, null}`, and a
scan that completes without resolving yields `{componentIds.length, null}`. -/
theorem calculateInsertionPoint_total_cases (cy : ℚ) (ids : List String)
    (d : Option String) (resolve : String → Option Rect) :
    (ids = [] →
      calculateInsertionPoint cy ids d resolve =
        { insertionIndex := 0, hoveredComponentId := none })
    ∧ (resolvedRects ids resolve = [] →
      calculateInsertionPoint cy ids d resolve =
        { insertionIndex := 0, hoveredComponentId := none })
    ∧ (∀ (l : List ComponentRect) (hl : l ≠ []),
        resolvedRects ids resolve = l →
        ¬ cy < (l.head hl).top → ¬ cy > (l.getLast hl).bottom →
        scanLoopHalf cy d l.length 0 l = none →
        calculateInsertionPoint cy ids d resolve =
          { insertionIndex := ids.length, hoveredComponentId := none }) := by
  refine ⟨?_, ?_, ?_⟩
  · intro h
    subst h
    rfl
  · intro h
    by_cases hids : ids = []
    · subst hids
      rfl
    · have hf : ids.isEmpty = false := by
        cases ids with
        | nil => exact absurd rfl hids
        | cons a as => rfl
      simp only [calculateInsertionPoint, hf, Bool.false_eq_true, if_false, h,
        List.head?_nil, List.getLast?_nil]
  · intro l hl hrects hfirst hlast hscan
    rw [calculateInsertionPoint_eq_scan cy ids d resolve l hrects hl hfirst
      hlast, hscan]

/-- C7 witness: the empty-canvas case and the scan-fallback case (dragging
comp-1 over its own top half with no predecessor, spec scenario 6) evaluated
concretely. -/
theorem calculateInsertionPoint_total_cases_witness :
    calculateInsertionPoint 100 [] none twoBoxes =
      { insertionIndex := 0, hoveredComponentId := none } ∧
    calculateInsertionPoint 120 ["comp-1", "comp-2", "comp-3"] (some "comp-1")
        threeBoxes =
      { insertionIndex := 3, hoveredComponentId := none } := by
  refine ⟨(calculateInsertionPoint_total_cases 100 [] none twoBoxes).1 rfl, ?_⟩
  exact (calculateInsertionPoint_total_cases 120 ["comp-1", "comp-2", "comp-3"]
      (some "comp-1") threeBoxes).2.2
    [{ id := "comp-1", top := 100, bottom := 200, height := 100,
       centerY := 100 + 100 / 2 },
     { id := "comp-2", top := 210, bottom := 310, height := 100,
       centerY := 210 + 100 / 2 },
     { id := "comp-3", top := 320, bottom := 420, height := 100,
       centerY := 320 + 100 / 2 }]
    (by simp) rfl (by decide) (by decide)
    (by norm_num [scanLoopHalf])

/-- C1 (amended): in the half-split variant, when the cursor lies within a
non-dragged component's box, no earlier box contains the cursor, and the
cursor sits exactly at the box's vertical center, the bottom-half rule
applies (the test `cursorY < centerY` is strict, so the center is not in the
top half): the result is `{i + 1, that id}` (insert after). -/
theorem center_cursor_resolves_below (cy : ℚ) (ids : List String)
    (d : Option String) (resolve : String → Option Rect)
    (pre post : List ComponentRect) (c : ComponentRect)
    (hrects : resolvedRects ids resolve = pre ++ c :: post)
    (hfirst : ¬ cy < ((pre ++ c :: post).head (by simp)).top)
    (hlast : ¬ cy > ((pre ++ c :: post).getLast (by simp)).bottom)
    (hmiss : ∀ b ∈ pre, ¬ (b.top ≤ cy ∧ cy ≤ b.bottom))
    (hin : c.top ≤ cy ∧ cy ≤ c.bottom)
    (hdrag : d ≠ some c.id)
    (hcenter : cy = c.centerY) :
    calculateInsertionPoint cy ids d resolve =
      { insertionIndex := pre.length + 1, hoveredComponentId := some c.id } := by
  rw [calculateInsertionPoint_eq_scan cy ids d resolve (pre ++ c :: post)
    hrects (by simp) hfirst hlast]
  rw [scanLoopHalf_append cy d (pre ++ c :: post).length pre hmiss 0 (c :: post)]
  have hnot : ¬ cy < c.centerY := by
    rw [hcenter]
    exact lt_irrefl _
  have hstep : scanLoopHalf cy d (pre ++ c :: post).length (0 + pre.length)
      (c :: post) = some (0 + pre.length + 1, c.id) := by
    simp only [scanLoopHalf, if_pos hin]
    rw [if_neg hdrag, if_neg hnot]
  rw [hstep]
  simp

/-- C1 witness: cursor at 150, exactly the center of comp-1's 100..200 box,
resolves after comp-1. -/
theorem center_cursor_resolves_below_witness :
    calculateInsertionPoint 150 ["comp-1", "comp-2"] none twoBoxes =
      { insertionIndex := 1, hoveredComponentId := some "comp-1" } := by
  have h := center_cursor_resolves_below 150 ["comp-1", "comp-2"] none twoBoxes
    []
    [{ id := "comp-2", top := 210, bottom := 310, height := 100,
       centerY := 210 + 100 / 2 }]
    { id := "comp-1", top := 100, bottom := 200, height := 100,
      centerY := 100 + 100 / 2 }
    rfl (by decide) (by decide) (by simp) (by decide) (by decide) (by norm_num)
  simpa using h

/-- C1 counterexample: at cursorY = 150 = comp-1's exact center, the claim's
asserted result `{0, comp-1}` (insert before) is wrong: the code returns
`{1, comp-1}` (insert after), because `isInTopHalf = cursorY < centerY` is
false at the center. -/
theorem center_cursor_top_half_refuted :
    (150 : ℚ) = 100 + 100 / 2 ∧
    calculateInsertionPoint 150 ["comp-1", "comp-2"] none twoBoxes ≠
      { insertionIndex := 0, hoveredComponentId := some "comp-1" } ∧
    calculateInsertionPoint 150 ["comp-1", "comp-2"] none twoBoxes =
      { insertionIndex := 1, hoveredComponentId := some "comp-1" } := by
  have hres : calculateInsertionPoint 150 ["comp-1", "comp-2"] none twoBoxes =
      { insertionIndex := 1, hoveredComponentId := some "comp-1" } := by
    norm_num [calculateInsertionPoint, resolvedRects, toComponentRect,
      twoBoxes, scanLoopHalf] <;> decide
  refine ⟨by norm_num, ?_, hres⟩
  rw [hres]
  decide

/-- C2 (amended): when the cursor falls within the dragged component's own
box (no earlier box containing the cursor), the half-split rule resolves on
the dragged box whenever the targeted side has a neighbor: top half with a
predecessor returns `{i, draggedId}`, bottom half with a successor returns
`{i + 1, draggedId}`; the box is treated as transparent (the scan continues)
only in the top half of the first element or the bottom half of the last. -/
theorem dragged_box_resolves_toward_neighbor (cy : ℚ) (ids : List String)
    (resolve : String → Option Rect)
    (pre post : List ComponentRect) (c : ComponentRect)
    (hrects : resolvedRects ids resolve = pre ++ c :: post)
    (hfirst : ¬ cy < ((pre ++ c :: post).head (by simp)).top)
    (hlast : ¬ cy > ((pre ++ c :: post).getLast (by simp)).bottom)
    (hmiss : ∀ b ∈ pre, ¬ (b.top ≤ cy ∧ cy ≤ b.bottom))
    (hin : c.top ≤ cy ∧ cy ≤ c.bottom) :
    (cy < c.centerY → pre ≠ [] →
      calculateInsertionPoint cy ids (some c.id) resolve =
        { insertionIndex := pre.length, hoveredComponentId := some c.id })
    ∧ (¬ cy < c.centerY → post ≠ [] →
      calculateInsertionPoint cy ids (some c.id) resolve =
        { insertionIndex := pre.length + 1, hoveredComponentId := some c.id }) := by
  constructor
  · intro htop hpre
    rw [calculateInsertionPoint_eq_scan cy ids (some c.id) resolve
      (pre ++ c :: post) hrects (by simp) hfirst hlast]
    rw [scanLoopHalf_append cy (some c.id) (pre ++ c :: post).length pre hmiss
      0 (c :: post)]
    have hpos : 0 < pre.length := List.length_pos.mpr hpre
    have hstep : scanLoopHalf cy (some c.id) (pre ++ c :: post).length
        (0 + pre.length) (c :: post) = some (0 + pre.length, c.id) := by
      simp only [scanLoopHalf, if_pos hin, if_true]
      rw [if_pos (⟨htop, by omega⟩ : cy < c.centerY ∧ 0 < 0 + pre.length)]
    rw [hstep]
    simp
  · intro hbot hpost
    rw [calculateInsertionPoint_eq_scan cy ids (some c.id) resolve
      (pre ++ c :: post) hrects (by simp) hfirst hlast]
    rw [scanLoopHalf_append cy (some c.id) (pre ++ c :: post).length pre hmiss
      0 (c :: post)]
    have hpos : 0 < post.length := List.length_pos.mpr hpost
    have hlt : 0 + pre.length < (pre ++ c :: post).length - 1 := by
      simp only [List.length_append, List.length_cons]
      omega
    have hstep : scanLoopHalf cy (some c.id) (pre ++ c :: post).length
        (0 + pre.length) (c :: post) = some (0 + pre.length + 1, c.id) := by
      simp only [scanLoopHalf, if_pos hin, if_true]
      rw [if_neg (fun hx => hbot hx.1),
        if_pos (⟨hbot, hlt⟩ : ¬ cy < c.centerY ∧
          0 + pre.length < (pre ++ c :: post).length - 1)]
    rw [hstep]
    simp

/-- C2 witness: dragging comp-2 (the middle of three) over its own box
resolves on the dragged box itself, toward the predecessor in the top half
(cursor 230 → index 1) and toward the successor in the bottom half
(cursor 280 → index 2). -/
theorem dragged_box_resolves_toward_neighbor_witness :
    calculateInsertionPoint 230 ["comp-1", "comp-2", "comp-3"] (some "comp-2")
        threeBoxes =
      { insertionIndex := 1, hoveredComponentId := some "comp-2" } ∧
    calculateInsertionPoint 280 ["comp-1", "comp-2", "comp-3"] (some "comp-2")
        threeBoxes =
      { insertionIndex := 2, hoveredComponentId := some "comp-2" } := by
  constructor
  · have h := (dragged_box_resolves_toward_neighbor 230
      ["comp-1", "comp-2", "comp-3"] threeBoxes
      [{ id := "comp-1", top := 100, bottom := 200, height := 100,
         centerY := 100 + 100 / 2 }]
      [{ id := "comp-3", top := 320, bottom := 420, height := 100,
         centerY := 320 + 100 / 2 }]
      { id := "comp-2", top := 210, bottom := 310, height := 100,
        centerY := 210 + 100 / 2 }
      rfl (by decide) (by decide) (by decide) (by decide)).1
      (by norm_num) (by decide)
    simpa using h
  · have h := (dragged_box_resolves_toward_neighbor 280
      ["comp-1", "comp-2", "comp-3"] threeBoxes
      [{ id := "comp-1", top := 100, bottom := 200, height := 100,
         centerY := 100 + 100 / 2 }]
      [{ id := "comp-3", top := 320, bottom := 420, height := 100,
         centerY := 320 + 100 / 2 }]
      { id := "comp-2", top := 210, bottom := 310, height := 100,
        centerY := 210 + 100 / 2 }
      rfl (by decide) (by decide) (by decide) (by decide)).2
      (by norm_num) (by decide)
    simpa using h

/-- C2 counterexample: comp-2 is neither first nor last of the three resolved
boxes, the cursor (230) is inside comp-2's own box while comp-2 is dragged,
yet the scan resolves on the dragged box itself — it returns `{1, comp-2}`
anchored on the dragged component instead of continuing past it. -/
theorem dragged_middle_box_not_transparent :
    calculateInsertionPoint 230 ["comp-1", "comp-2", "comp-3"] (some "comp-2")
        threeBoxes =
      { insertionIndex := 1, hoveredComponentId := some "comp-2" } ∧
    (calculateInsertionPoint 230 ["comp-1", "comp-2", "comp-3"] (some "comp-2")
        threeBoxes).hoveredComponentId = some "comp-2" := by
  have hres : calculateInsertionPoint 230 ["comp-1", "comp-2", "comp-3"]
      (some "comp-2") threeBoxes =
      { insertionIndex := 1, hoveredComponentId := some "comp-2" } := by
    norm_num [calculateInsertionPoint, resolvedRects, toComponentRect,
      threeBoxes, scanLoopHalf] <;> decide
  exact ⟨hres, by rw [hres]⟩

/-- C4: the half-split variant and the always-insert-below variant are not
extensionally equal: with a single resolved box 100..200 and the cursor at
130 (top half), the half-split variant inserts before (index 0) while the
always-below variant inserts after (index 1). -/
theorem variants_not_interchangeable :
    calculateInsertionPoint 130 ["comp-1", "comp-2"] none twoBoxes ≠
      calculateInsertionPointBelow 130 ["comp-1", "comp-2"] none twoBoxes := by
  have h1 : calculateInsertionPoint 130 ["comp-1", "comp-2"] none twoBoxes =
      { insertionIndex := 0, hoveredComponentId := some "comp-1" } := by
    norm_num [calculateInsertionPoint, resolvedRects, toComponentRect,
      twoBoxes, scanLoopHalf] <;> decide
  have h2 : calculateInsertionPointBelow 130 ["comp-1", "comp-2"] none
      twoBoxes =
      { insertionIndex := 1, hoveredComponentId := some "comp-1" } := by
    norm_num [calculateInsertionPointBelow, resolvedRects, toComponentRect,
      twoBoxes, scanLoopBelow] <;> decide
  rw [h1, h2]
  decide

/-- C10: the half-split variant can report the dragged component as its own
hovered component: dragging a2 (which has both neighbors), cursor in the top
half of a2's own box yields `{1, a2}`, and in the bottom half `{2, a2}` —
`hoveredComponentId` equals `draggedComponentId` in both. -/
theorem hovered_can_equal_dragged :
    (calculateInsertionPoint 100 ["a1", "a2", "a3"] (some "a2")
      boxes80).hoveredComponentId = some "a2" ∧
    calculateInsertionPoint 100 ["a1", "a2", "a3"] (some "a2") boxes80 =
      { insertionIndex := 1, hoveredComponentId := some "a2" } ∧
    calculateInsertionPoint 145 ["a1", "a2", "a3"] (some "a2") boxes80 =
      { insertionIndex := 2, hoveredComponentId := some "a2" } := by
  have h1 : calculateInsertionPoint 100 ["a1", "a2", "a3"] (some "a2")
      boxes80 =
      { insertionIndex := 1, hoveredComponentId := some "a2" } := by
    norm_num [calculateInsertionPoint, resolvedRects, toComponentRect,
      boxes80, scanLoopHalf] <;> decide
  have h2 : calculateInsertionPoint 145 ["a1", "a2", "a3"] (some "a2")
      boxes80 =
      { insertionIndex := 2, hoveredComponentId := some "a2" } := by
    norm_num [calculateInsertionPoint, resolvedRects, toComponentRect,
      boxes80, scanLoopHalf] <;> decide
  exact ⟨by rw [h1], h1, h2⟩

/-- C3: in the reorder path of `handleDragEnd` (drop target present, a
canvas component is being dragged, the session's insertionIndex is non-null,
and the dragged id occurs in the layout), the reorder callback receives
target `rawIndex - 1` when `rawIndex > oldIndex` and `rawIndex` otherwise,
and is not invoked when the computed target equals `oldIndex`; concretely,
for layout `[A, B, C]`, dragging A with insertionIndex 2 invokes
`reorder 0 1`, and the spec's remove-then-insert move yields `[B, A, C]`. -/
theorem handleDragEnd_reorder_indices :
    (∀ (ds : DragState) (layout : List String) (ev : DragEndEventM)
        (o : OverData) (raw : Nat),
      ev.over = some o →
      ev.activeType = some "canvas-component" →
      ds.insertionIndex = some raw →
      0 ≤ jsFindIndex layout ev.activeId →
      (handleDragEnd ds layout ev).2 =
        (if (if (raw : Int) > jsFindIndex layout ev.activeId
             then (raw : Int) - 1 else (raw : Int)) =
            jsFindIndex layout ev.activeId
         then []
         else [DragAction.reorder (jsFindIndex layout ev.activeId)
                (if (raw : Int) > jsFindIndex layout ev.activeId
                 then (raw : Int) - 1 else (raw : Int))]))
    ∧ (handleDragEnd { initialDragState with insertionIndex := some 2 }
        ["A", "B", "C"]
        { over := some { overId := "B", overIndex := none }, activeId := "A",
          activeType := some "canvas-component", componentType := none }).2 =
      [DragAction.reorder 0 1]
    ∧ reorderMove ["A", "B", "C"] 0 1 = ["B", "A", "C"] := by
  refine ⟨?_, by decide, by decide⟩
  intro ds layout ev o raw hover htype hins hold
  obtain ⟨over, aid, atype, ctype⟩ := ev
  simp only at hover htype hold ⊢
  subst hover
  subst htype
  simp only [handleDragEnd, hins, if_true]
  by_cases heq : (if (raw : Int) > jsFindIndex layout aid
      then (raw : Int) - 1 else (raw : Int)) = jsFindIndex layout aid
  · rw [if_pos heq, if_neg]
    intro hcond
    exact hcond.2.2 heq.symm
  · rw [if_neg heq, if_pos]
    refine ⟨by omega, ?_, fun h => heq h.symm⟩
    by_cases hgt : (raw : Int) > jsFindIndex layout aid
    · rw [if_pos hgt]
      omega
    · rw [if_neg hgt]
      omega

/-- C3 witness: the general index rule applied to the concrete scenario
(layout `[A, B, C]`, drag A, insertionIndex 2). -/
theorem handleDragEnd_reorder_indices_witness :
    (handleDragEnd { initialDragState with insertionIndex := some 2 }
      ["A", "B", "C"]
      { over := some { overId := "B", overIndex := none }, activeId := "A",
        activeType := some "canvas-component", componentType := none }).2 =
      [DragAction.reorder 0 1] := by
  have h := handleDragEnd_reorder_indices.1
    { initialDragState with insertionIndex := some 2 } ["A", "B", "C"]
    { over := some { overId := "B", overIndex := none }, activeId := "A",
      activeType := some "canvas-component", componentType := none }
    { overId := "B", overIndex := none } 2 rfl rfl rfl (by decide)
  rw [h]
  decide

/-- C9: `handleDragCancel`, and `handleDragEnd` with no drop target, reset
the drag state to the idle record and invoke neither the add-component nor
the reorder callback — at most the informational toast fires. -/
theorem cancel_and_drop_outside_no_mutation :
    (handleDragCancel = (initialDragState, ([] : List DragAction)))
    ∧ ∀ (ds : DragState) (layout : List String) (ev : DragEndEventM),
        ev.over = none →
        (handleDragEnd ds layout ev).1 = initialDragState ∧
        ∀ a ∈ (handleDragEnd ds layout ev).2,
          ∃ m, a = DragAction.toastInfo m := by
  refine ⟨rfl, ?_⟩
  intro ds layout ev hover
  obtain ⟨over, aid, atype, ctype⟩ := ev
  simp only at hover
  subst hover
  refine ⟨rfl, ?_⟩
  intro a ha
  simp only [handleDragEnd] at ha
  split at ha
  · simp only [List.mem_singleton] at ha
    exact ⟨_, ha⟩
  · simp at ha

/-- C9 witness: a concrete drop with no target resets the state. -/
theorem cancel_and_drop_outside_no_mutation_witness :
    (handleDragEnd initialDragState ["A"]
      { over := none, activeId := "X", activeType := none,
        componentType := none }).1 = initialDragState :=
  (cancel_and_drop_outside_no_mutation.2 initialDragState ["A"]
    { over := none, activeId := "X", activeType := none,
      componentType := none } rfl).1

/-- C8 counterexample: a reachable state — drag start, then a move sample
whose `over` is a canvas component but whose translated active rect is
unresolved, with layout `["A"]` — has `isOverCanvas = true` and a non-empty
layout, yet `insertionIndex = null`; so "null exactly when not over the
surface or no components" fails on the code. -/
theorem insertionIndex_null_iff_refuted :
    Reachable (handleDragMove
      (handleDragStart
        { componentType := none, dragType := some "canvas-component", activeId := "A" })
      ["A"] probeNone
      { overType := some "canvas-component", activeId := "A", activeRect := none }) ∧
    (handleDragMove
      (handleDragStart
        { componentType := none, dragType := some "canvas-component", activeId := "A" })
      ["A"] probeNone
      { overType := some "canvas-component", activeId := "A", activeRect := none }).isOverCanvas = true ∧
    (handleDragMove
      (handleDragStart
        { componentType := none, dragType := some "canvas-component", activeId := "A" })
      ["A"] probeNone
      { overType := some "canvas-component", activeId := "A", activeRect := none }).insertionIndex = none ∧
    ¬ ((handleDragMove
      (handleDragStart
        { componentType := none, dragType := some "canvas-component", activeId := "A" })
      ["A"] probeNone
      { overType := some "canvas-component", activeId := "A", activeRect := none }).insertionIndex = none ↔
      ((handleDragMove
        (handleDragStart
          { componentType := none, dragType := some "canvas-component", activeId := "A" })
        ["A"] probeNone
        { overType := some "canvas-component", activeId := "A", activeRect := none }).isOverCanvas = false ∨
        (["A"] : List String) = [])) := by
  refine ⟨Reachable.move _ _ _ _ (Reachable.start initialDragState _
    Reachable.init), ?_, ?_, ?_⟩ <;> decide

/-- C8 (amended): in every reachable drag-session state, if the pointer is
not over the drop surface then `insertionIndex` is null; every handler
replaces or resets the triple, so no stale value survives a transition.
(The original biconditional fails: over the canvas with an unresolved
active rect the index is null, and over the canvas with an empty layout the
calculator yields 0, not null.) -/
theorem reachable_not_over_insertionIndex_none :
    ∀ s : DragState, Reachable s → s.isOverCanvas = false →
      s.insertionIndex = none := by
  intro s hs
  induction hs with
  | init => intro _; rfl
  | start s ev _ => intro _; rfl
  | move s layout resolve ev _ ih =>
    intro hover
    by_cases hc : s.isOverCanvas = moveIsOverCanvas ev ∧
        s.insertionIndex = (moveComputed s layout resolve ev).1 ∧
        s.hoveredComponentId = (moveComputed s layout resolve ev).2
    · unfold handleDragMove at hover ⊢
      rw [if_pos hc] at hover ⊢
      exact ih hover
    · unfold handleDragMove at hover ⊢
      rw [if_neg hc] at hover ⊢
      dsimp only at hover ⊢
      simp only [moveComputed, hover, Bool.false_eq_true, if_false]
  | drop s layout ev _ ih =>
    intro _
    obtain ⟨over, aid, atype, ctype⟩ := ev
    cases over with
    | none => rfl
    | some o => rfl
  | cancel s _ _ => intro _; rfl

/-- C8 witness: the amended invariant applied to the reachable initial
state. -/
theorem reachable_not_over_insertionIndex_none_witness :
    initialDragState.insertionIndex = none :=
  reachable_not_over_insertionIndex_none initialDragState Reachable.init rfl
